import Mathlib

/-!
Verification of the natural-language specification of `src/dave.c`, an
8x8x8 LED-cube driver for an STC12/8051 controller, against a shallow
embedding of its C source.

Embedding conventions:
  - `display[8][8]` (one byte per `(z, y)`, bit `7 - x` of the byte is the
    LED at `(x, y, z)`, with inverted logic: a 0 bit means the LED is on)
    becomes `Display := Fin 8 → Fin 8 → Nat` holding the byte values.
  - The button-polling delay routine `pause` keeps its statics
    (`pause`, `p41key`, `p42key`, `p43key`) and the global `mode` in a
    state record `BState`.  Port reads of `P4_1..P4_3` are modelled by a
    list of samples, one sample consumed per iteration of the inner
    busy-wait loop (the `P4_2`/`P4_3` reads of an iteration use the same
    sample as the `P4_1` read that let the loop exit).  Two ghost
    counters (`toggles`, `modeWrites`) count executions of the
    `pause = !pause` and `mode = ...` statements; they are observation
    instrumentation only and influence no branch.
  - Pure busy-wait delays (`delay5us`, `delay`) have no observable state
    and are dropped.
  - The pattern generators take the sequence of results of their
    successive `pause(...)` calls as an oracle list of booleans
    (`true` = the call returned 1, i.e. a mode change was signalled).
-/

namespace ICubeSmart

/-- The frame buffer `display[8][8]`: `d z y` is the byte for z-layer `z`,
y-row `y`; bit `7 - x` (i.e. `128 >> x`) is the LED at `(x, y, z)`, and a
0 bit turns the LED on. -/
def Display : Type := Fin 8 → Fin 8 → Nat

/-- Reading a coordinate of the frame buffer: the LED at `(x, y, z)` is on
exactly when bit `7 - x` of `display[z][y]` is clear. -/
def getPoint (d : Display) (x y z : Fin 8) : Bool :=
  !((d z y).testBit (7 - x.val))

/-- `set_all(v)`: every byte becomes `v ? 0 : 0xff`. -/
def set_all (v : Bool) (_ : Display) : Display :=
  fun _ _ => if v then 0 else 255

/-- `set_x_plane(x, v)`: every byte gets bit `128 >> x` cleared (on) or
set (off).  The C `&= ~(128>>x)` on an `unsigned char` is the 8-bit
masked complement, i.e. `&&& (255 ^^^ (128 >>> x))`. -/
def set_x_plane (x : Fin 8) (v : Bool) (d : Display) : Display :=
  fun z y =>
    if v then d z y &&& (255 ^^^ (128 >>> x.val))
    else d z y ||| (128 >>> x.val)

/-- `set_y_plane(y, v)`: byte `(z, y)` becomes 0 (all on) or 0xff. -/
def set_y_plane (y : Fin 8) (v : Bool) (d : Display) : Display :=
  fun z y1 => if y1 = y then (if v then 0 else 255) else d z y1

/-- `set_z_plane(z, v)`: byte `(z, y)` becomes 0 (all on) or 0xff. -/
def set_z_plane (z : Fin 8) (v : Bool) (d : Display) : Display :=
  fun z1 y => if z1 = z then (if v then 0 else 255) else d z1 y

/-- `set_point(x, y, z, v)`: clear (on) or set (off) bit `128 >> x` of
byte `(z, y)`. -/
def set_point (x y z : Fin 8) (v : Bool) (d : Display) : Display :=
  fun z1 y1 =>
    if z1 = z ∧ y1 = y then
      (if v then d z y &&& (255 ^^^ (128 >>> x.val))
       else d z y ||| (128 >>> x.val))
    else d z1 y1

/-- `character_on_y(y, c)`: byte `(z, y)` becomes `~c[z]` (8-bit
complement, i.e. `255 ^^^ c[z]` for byte-sized rows). -/
def character_on_y (y : Fin 8) (c : Fin 8 → Nat) (d : Display) : Display :=
  fun z y1 => if y1 = y then 255 ^^^ c z else d z y1

/-! ### Button polling (`pause`) -/

/-- One sample of the three button lines; `b1/b2/b3 = true` means the
line `P4_1/P4_2/P4_3` reads low, i.e. the button is pressed. -/
structure Sample where
  b1 : Bool
  b2 : Bool
  b3 : Bool
deriving DecidableEq

/-- The statics of `pause` (`pause`, `p41key`, `p42key`, `p43key`), the
global `mode`, and two ghost counters: `toggles` counts executions of
`pause = !pause`, `modeWrites` counts assignments to `mode`. -/
structure BState where
  pause : Bool
  p41key : Bool
  p42key : Bool
  p43key : Bool
  mode : Nat
  toggles : Nat
  modeWrites : Nat
deriving DecidableEq

/-- One iteration of the body of the button-1 busy-wait loop: on a press
with the latch clear, set the latch and toggle the pause flag; on a
press with the latch set, do nothing; on release, clear the latch. -/
def spinStep (s : Sample) (st : BState) : BState :=
  if s.b1 then
    (if st.p41key then st
     else { st with p41key := true, pause := !st.pause,
                    toggles := st.toggles + 1 })
  else { st with p41key := false }

/-- Result of the button-1 busy-wait loop (`while (1) { ... }`): either
the sample list was exhausted while still looping (`blocked`, the real
code would keep spinning), or the loop exited unpaused (`exited`),
remembering the sample of the final iteration, which the same outer
iteration then uses for the `P4_2`/`P4_3` checks. -/
inductive SpinRes where
  | blocked (st : BState)
  | exited (s : Sample) (st : BState) (rest : List Sample)
deriving DecidableEq

/-- The button-1 busy-wait loop of `pause`: process one sample, then exit
when unpaused. -/
def spin : List Sample → BState → SpinRes
  | [], st => SpinRes.blocked st
  | s :: tr, st =>
    let st1 := spinStep s st
    if st1.pause then spin tr st1 else SpinRes.exited s st1 tr

/-- Result of a call to `pause(i)`: `ret r st rest` models `return r`
with final state `st` and unconsumed samples `rest`; `blocked st` means
the sample list ran out inside the pause busy-wait. -/
inductive PRes where
  | blocked (st : BState)
  | ret (r : Nat) (st : BState) (rest : List Sample)
deriving DecidableEq

/-- The button-3 block of `pause`: on a press with the latch clear, set
the latch, write `mode = (mode + 1) % 5` and return 1 (`Sum.inl`); on a
press with the latch set, do nothing; on release, clear the latch.  A
`Sum.inr` result is the fall-through to the next outer iteration. -/
def button3 (s : Sample) (st2 : BState) (rest : List Sample) :
    PRes ⊕ BState :=
  if s.b3 && !st2.p43key then
    Sum.inl (PRes.ret 1 { st2 with p43key := true,
                                   mode := (st2.mode + 1) % 5,
                                   modeWrites := st2.modeWrites + 1 } rest)
  else Sum.inr (if !s.b3 then { st2 with p43key := false } else st2)

/-- The button-2 block of `pause`, followed by the button-3 block.  On a
press with the latch clear, set the latch, write `mode = 0` and return 1
(`Sum.inl`).  The block keeps the source's dangling `else`: the
`else p42key = 0;` of the C source binds to the inner `if (!p42key)`, so
the latch is cleared when button 2 is pressed with the latch already
set, and nothing at all happens to `p42key` when button 2 is released. -/
def button23 (s : Sample) (st1 : BState) (rest : List Sample) :
    PRes ⊕ BState :=
  if s.b2 && !st1.p42key then
    Sum.inl (PRes.ret 1 { st1 with p42key := true, mode := 0,
                                   modeWrites := st1.modeWrites + 1 } rest)
  else
    button3 s (if s.b2 && st1.p42key then { st1 with p42key := false }
               else st1) rest

/-- `int pause(unsigned int i)` from `src/dave.c`.  Per outer iteration
(`while (i--)`): run the button-1 busy-wait loop, then the button-2 and
button-3 blocks; a `Sum.inl` from them is an immediate `return 1`, a
`Sum.inr` carries the state into the next iteration.  When the budget is
exhausted, return 0. -/
def pause : Nat → List Sample → BState → PRes
  | 0, tr, st => PRes.ret 0 st tr
  | i + 1, tr, st =>
    match spin tr st with
    | SpinRes.blocked st1 => PRes.blocked st1
    | SpinRes.exited s st1 rest =>
      match button23 s st1 rest with
      | Sum.inl p => p
      | Sum.inr st3 => pause i rest st3

/-- The state of the statics of `pause` and of `mode` at process start:
all zero (`static int mode = 0`). -/
def initB : BState :=
  { pause := false, p41key := false, p42key := false, p43key := false,
    mode := 0, toggles := 0, modeWrites := 0 }

/-! ### Pattern generators

Each generator mirrors its C function; the results of its successive
`pause(...)` calls are supplied as an oracle `List Bool` (`true` = that
call returned 1).  A generator returns `(r, d, oc)`: its C return value
(`1` = interrupted, `0` = completed), the final frame buffer, and the
unconsumed oracle. -/

/-- The result of one `pause(...)` call, taken from the oracle; an
exhausted oracle reads as 0 (no button event). -/
def next : List Bool → Bool × List Bool
  | [] => (false, [])
  | b :: r => (b, r)

/-- `int all(void)`: flash the whole cube on, wait, off, wait. -/
def all (oc0 : List Bool) (d0 : Display) : Nat × Display × List Bool :=
  let d1 := set_all true d0
  let p1 := next oc0
  if p1.1 then (1, d1, p1.2)
  else
    let d2 := set_all false d1
    let p2 := next p1.2
    if p2.1 then (1, d2, p2.2) else (0, d2, p2.2)

/-- The x-plane-sweep loop body of `planes` (and, with the other plane
setters, its y and z loops): set plane `i`, wait, clear plane `i`. -/
def planesAxis (set : Fin 8 → Bool → Display → Display) :
    List (Fin 8) → List Bool → Display → Nat × Display × List Bool
  | [], oc, d => (0, d, oc)
  | i :: rest, oc, d =>
    let d1 := set i true d
    let p := next oc
    if p.1 then (1, d1, p.2)
    else planesAxis set rest p.2 (set i false d1)

/-- `int planes(void)`: clear, then sweep the x, y and z planes. -/
def planes (oc : List Bool) (d : Display) : Nat × Display × List Bool :=
  let d0 := set_all false d
  let r1 := planesAxis set_x_plane (List.finRange 8) oc d0
  if r1.1 = 1 then r1
  else
    let r2 := planesAxis set_y_plane (List.finRange 8) r1.2.2 r1.2.1
    if r2.1 = 1 then r2
    else planesAxis set_z_plane (List.finRange 8) r2.2.2 r2.2.1

/-- The coordinates visited by `points`, in the source's nested-loop
order: x outermost, then y, then z. -/
def pointsXYZ : List (Fin 8 × Fin 8 × Fin 8) :=
  (List.finRange 8).flatMap fun x =>
    (List.finRange 8).flatMap fun y =>
      (List.finRange 8).map fun z => (x, y, z)

/-- The nested loops of `points`: light one LED, wait, clear it. -/
def pointsLoop : List (Fin 8 × Fin 8 × Fin 8) → List Bool → Display →
    Nat × Display × List Bool
  | [], oc, d => (0, d, oc)
  | (x, y, z) :: rest, oc, d =>
    let d1 := set_point x y z true d
    let p := next oc
    if p.1 then (1, d1, p.2)
    else pointsLoop rest p.2 (set_point x y z false d1)

/-- `int points(void)`: clear, then sweep every individual LED. -/
def points (oc : List Bool) (d : Display) : Nat × Display × List Bool :=
  pointsLoop pointsXYZ oc (set_all false d)

/-- The bitmap table `dave[4][8]` (rows for the glyphs D, A, V, E). -/
def daveData : Fin 4 → Fin 8 → Nat :=
  ![![0xf8, 0xfc, 0xc6, 0xc3, 0xc3, 0xc6, 0xfc, 0xf8],
    ![0xc3, 0xc3, 0xff, 0xff, 0xc3, 0x66, 0x3c, 0x18],
    ![0x18, 0x3c, 0x66, 0xc3, 0xc3, 0xc3, 0xc3, 0xc3],
    ![0xff, 0xff, 0xc0, 0xf8, 0xf8, 0xc0, 0xff, 0xff]]

/-- The (glyph, y) pairs visited by the loops of `dave`, in source
order: glyph outermost, y innermost. -/
def daveCY : List (Fin 4 × Fin 8) :=
  (List.finRange 4).flatMap fun c =>
    (List.finRange 8).map fun y => (c, y)

/-- The loops of `dave`, then its trailing `set_all(1)` and final wait. -/
def daveLoop : List (Fin 4 × Fin 8) → List Bool → Display →
    Nat × Display × List Bool
  | [], oc, d =>
    let d1 := set_all true d
    let p := next oc
    if p.1 then (1, d1, p.2) else (0, d1, p.2)
  | (c, y) :: rest, oc, d =>
    let d1 := character_on_y y (daveData c) d
    let p := next oc
    if p.1 then (1, d1, p.2)
    else daveLoop rest p.2 (set_y_plane y false d1)

/-- `int dave(void)`: clear, scroll the glyphs D, A, V, E across the y
planes, then flash the whole cube. -/
def dave (oc : List Bool) (d : Display) : Nat × Display × List Bool :=
  daveLoop daveCY oc (set_all false d)

/-! ### Dispatch loop (`main`) -/

/-- A pattern generator paired with its oracle-threading signature. -/
def Gen : Type := List Bool → Display → Nat × Display × List Bool

/-- Run a numbered sequence of generators in order, stopping at the
first one that returns 1 (interrupted); the returned `List Nat` records,
in order, exactly the generators that were invoked. -/
def runSeq : List (Nat × Gen) → List Bool → Display →
    Display × List Bool × List Nat
  | [], oc, d => (d, oc, [])
  | (n, g) :: rest, oc, d =>
    let r := g oc d
    if r.1 = 1 then (r.2.1, r.2.2, [n])
    else
      let q := runSeq rest r.2.2 r.2.1
      (q.1, q.2.1, n :: q.2.2)

/-- One iteration of the `while(1)` dispatch loop of `main`: the
`switch (mode)`.  Mode 4 runs `dave`, `points`, `planes`, `all` in
sequence, each of the first three aborting the case on interruption
(`if (...) break;`); `all()`'s result is discarded, which coincides
with `runSeq` because `all` is last.  The `List Nat` component records
which generators were invoked during the iteration. -/
def mainStep (m : Nat) (oc : List Bool) (d : Display) :
    Display × List Bool × List Nat :=
  match m with
  | 0 => let r := dave oc d; (r.2.1, r.2.2, [0])
  | 1 => let r := points oc d; (r.2.1, r.2.2, [1])
  | 2 => let r := planes oc d; (r.2.1, r.2.2, [2])
  | 3 => let r := all oc d; (r.2.1, r.2.2, [3])
  | 4 => runSeq [(0, dave), (1, points), (2, planes), (3, all)] oc d
  | _ => (d, oc, [])

/-! ### Timer interrupt (`timer_isr`) -/

/-- One write to an output port performed by the interrupt handler:
`p1 v` drives the anode layer-select port, `p2 v` the cathode-latch
select port, `p0 v` the cathode data port. -/
inductive PortWrite where
  | p1 (v : Nat)
  | p2 (v : Nat)
  | p0 (v : Nat)
deriving DecidableEq

/-- The latch-loading loop of `timer_isr`: for each latch `i`, select it
(`P2 = 1 << i`) and write its data byte (`P0 = display[layer][i]`). -/
def isrLoop (layer : Fin 8) (d : Display) : List (Fin 8) → List PortWrite
  | [] => []
  | i :: rest =>
    PortWrite.p2 (1 <<< i.val) :: PortWrite.p0 (d layer i) ::
      isrLoop layer d rest

/-- `void timer_isr(void)`: returns the ordered list of port writes of
one firing and the new value of the static `layer`.  `P1 = ~(1<<layer)`
on an 8-bit port is `255 ^^^ (1 <<< layer)`. -/
def timer_isr (layer : Nat) (hl : layer < 8) (d : Display) :
    List PortWrite × Nat :=
  (PortWrite.p1 255 ::
     (isrLoop ⟨layer, hl⟩ d (List.finRange 8) ++
       [PortWrite.p1 (255 ^^^ (1 <<< layer))]),
   if layer + 1 > 7 then 0 else layer + 1)

/-! ### Concrete fixtures used in theorem statements and witnesses -/

/-- A sample with only button 1 (pause) pressed. -/
def sB1 : Sample := ⟨true, false, false⟩

/-- A sample with only button 2 (mode reset) pressed. -/
def sB2 : Sample := ⟨false, true, false⟩

/-- A sample with only button 3 (mode advance) pressed. -/
def sB3 : Sample := ⟨false, false, true⟩

/-- A sample with no button pressed. -/
def sNone : Sample := ⟨false, false, false⟩

/-- `n` consecutive poll ticks with button 1 held low. -/
def heldLow (n : Nat) : List Sample := List.replicate n sB1

/-- A frame buffer with every LED off (all bytes `0xff`), as after
`set_all(0)`. -/
def dInit : Display := fun _ _ => 255

/-- The glyph row bitmap `{0xFF, 0, 0, 0, 0, 0, 0, 0}` of the scroll-text
scenario. -/
def glyphTop : Fin 8 → Nat := ![0xff, 0, 0, 0, 0, 0, 0, 0]

/-- The button state right after the first confirmed button-2 event from
the initial state. -/
def stAfterFire2 : BState := ⟨false, false, true, false, 0, 0, 1⟩

/-- The button state after a second button-2 event fires without the
button ever having been released. -/
def stAfterFire2Again : BState := ⟨false, false, true, false, 0, 0, 2⟩

/-- A paused button state (pause flag set, latches clear, mode 2). -/
def stPaused : BState := ⟨true, false, false, false, 2, 1, 0⟩

/-- A button state with mode 1 and all latches clear. -/
def stMode1 : BState := ⟨false, false, false, false, 1, 0, 0⟩

/-- The state `stMode1` becomes when a button-3 event fires. -/
def stMode2 : BState := ⟨false, false, false, true, 2, 0, 1⟩

/-- What one `pause` call may do to `mode` and the ghost write counter,
relative to the entry state `st`: a return of 0 or running out of
samples leaves them untouched; a return of 1 comes with exactly one new
`mode` write, whose value is 0 (button 2) or `(mode + 1) % 5`
(button 3); no other return value occurs. -/
def PauseInv (st : BState) : PRes → Prop
  | PRes.blocked st1 => st1.mode = st.mode ∧ st1.modeWrites = st.modeWrites
  | PRes.ret r st1 _ =>
    (r = 0 ∧ st1.mode = st.mode ∧ st1.modeWrites = st.modeWrites) ∨
    (r = 1 ∧ st1.modeWrites = st.modeWrites + 1 ∧
      (st1.mode = 0 ∨ st1.mode = (st.mode + 1) % 5))

end ICubeSmart

/-! ## Helper lemmas -/

namespace ICubeSmart

lemma spinStep_fields (s : Sample) (st : BState) :
    (spinStep s st).mode = st.mode ∧ (spinStep s st).p42key = st.p42key ∧
    (spinStep s st).p43key = st.p43key ∧
    (spinStep s st).modeWrites = st.modeWrites := by
  cases hb : s.b1 <;> cases hk : st.p41key <;> simp [spinStep, hb, hk]

lemma spin_cases : ∀ (tr : List Sample) (st : BState),
    (∀ st1, spin tr st = SpinRes.blocked st1 →
      st1.mode = st.mode ∧ st1.p42key = st.p42key ∧
      st1.p43key = st.p43key ∧ st1.modeWrites = st.modeWrites) ∧
    (∀ s st1 rest, spin tr st = SpinRes.exited s st1 rest →
      (st1.mode = st.mode ∧ st1.p42key = st.p42key ∧
       st1.p43key = st.p43key ∧ st1.modeWrites = st.modeWrites) ∧
      st1.pause = false) := by
  intro tr
  induction tr with
  | nil =>
    intro st
    refine ⟨?_, ?_⟩
    · intro st1 h
      simp only [spin] at h
      cases h
      exact ⟨rfl, rfl, rfl, rfl⟩
    · intro s st1 rest h
      simp only [spin] at h
      cases h
  | cons s0 tr ih =>
    intro st
    obtain ⟨hm, hk2, hk3, hw⟩ := spinStep_fields s0 st
    refine ⟨?_, ?_⟩
    · intro st1 h
      simp only [spin] at h
      split at h
      · obtain ⟨h1, h2, h3, h4⟩ := (ih (spinStep s0 st)).1 st1 h
        exact ⟨h1.trans hm, h2.trans hk2, h3.trans hk3, h4.trans hw⟩
      · cases h
    · intro s st1 rest h
      simp only [spin] at h
      split at h
      case isTrue hc =>
        obtain ⟨⟨h1, h2, h3, h4⟩, h5⟩ := (ih (spinStep s0 st)).2 s st1 rest h
        exact ⟨⟨h1.trans hm, h2.trans hk2, h3.trans hk3, h4.trans hw⟩, h5⟩
      case isFalse hc =>
        cases h
        exact ⟨⟨hm, hk2, hk3, hw⟩, by simpa using hc⟩

lemma spin_mem : ∀ (tr : List Sample) (st : BState) (s : Sample)
    (st1 : BState) (rest : List Sample),
    spin tr st = SpinRes.exited s st1 rest →
    s ∈ tr ∧ ∀ x ∈ rest, x ∈ tr := by
  intro tr
  induction tr with
  | nil =>
    intro st s st1 rest h
    simp only [spin] at h
    cases h
  | cons s0 tr ih =>
    intro st s st1 rest h
    simp only [spin] at h
    split at h
    · obtain ⟨h1, h2⟩ := ih (spinStep s0 st) s st1 rest h
      exact ⟨List.mem_cons_of_mem _ h1,
             fun x hx => List.mem_cons_of_mem _ (h2 x hx)⟩
    · cases h
      exact ⟨List.mem_cons_self _ _, fun x hx => List.mem_cons_of_mem _ hx⟩

lemma pauseInv_transfer (stA stB : BState) (hM : stA.mode = stB.mode)
    (hW : stA.modeWrites = stB.modeWrites) :
    ∀ p : PRes, PauseInv stA p → PauseInv stB p := by
  intro p h
  cases p with
  | blocked st1 => exact ⟨h.1.trans hM, h.2.trans hW⟩
  | ret r st1 rest =>
    rcases h with ⟨h0, h1, h2⟩ | ⟨h1, h2, h3⟩
    · exact Or.inl ⟨h0, h1.trans hM, h2.trans hW⟩
    · refine Or.inr ⟨h1, by rw [h2, hW], ?_⟩
      rcases h3 with h3 | h3
      · exact Or.inl h3
      · exact Or.inr (by rw [h3, hM])

lemma button3_spec (s : Sample) (st2 : BState) (rest : List Sample) :
    (∀ p, button3 s st2 rest = Sum.inl p →
      ∃ st4, p = PRes.ret 1 st4 rest ∧
        st4.modeWrites = st2.modeWrites + 1 ∧
        st4.mode = (st2.mode + 1) % 5) ∧
    (∀ st3, button3 s st2 rest = Sum.inr st3 →
      st3.mode = st2.mode ∧ st3.modeWrites = st2.modeWrites) := by
  unfold button3
  constructor
  · intro p h
    split at h
    · cases h
      exact ⟨_, rfl, rfl, rfl⟩
    · cases h
  · intro st3 h
    split at h
    · cases h
    · cases h
      split <;> exact ⟨rfl, rfl⟩

lemma button23_spec (s : Sample) (st1 : BState) (rest : List Sample) :
    (∀ p, button23 s st1 rest = Sum.inl p →
      ∃ st4, p = PRes.ret 1 st4 rest ∧
        st4.modeWrites = st1.modeWrites + 1 ∧
        (st4.mode = 0 ∨ st4.mode = (st1.mode + 1) % 5)) ∧
    (∀ st3, button23 s st1 rest = Sum.inr st3 →
      st3.mode = st1.mode ∧ st3.modeWrites = st1.modeWrites) := by
  unfold button23
  constructor
  · intro p h
    split at h
    · cases h
      exact ⟨_, rfl, rfl, Or.inl rfl⟩
    · obtain ⟨st4, h1, h2, h3⟩ := (button3_spec s _ rest).1 p h
      refine ⟨st4, h1, ?_, Or.inr ?_⟩ <;> split at h2 <;> split at h3 <;>
        simp_all
  · intro st3 h
    split at h
    · cases h
    · obtain ⟨h1, h2⟩ := (button3_spec s _ rest).2 st3 h
      constructor <;> revert h1 h2 <;> split <;> simp_all

lemma pause_cases : ∀ (i : Nat) (tr : List Sample) (st : BState),
    PauseInv st (pause i tr st) := by
  intro i
  induction i with
  | zero =>
    intro tr st
    exact Or.inl ⟨rfl, rfl, rfl⟩
  | succ i ih =>
    intro tr st
    cases hs : spin tr st with
    | blocked st1 =>
      obtain ⟨hm, _, _, hw⟩ := (spin_cases tr st).1 st1 hs
      simp only [pause, hs]
      exact ⟨hm, hw⟩
    | exited s st1 rest =>
      obtain ⟨⟨hm, _, _, hw⟩, _⟩ := (spin_cases tr st).2 s st1 rest hs
      simp only [pause, hs]
      cases hb : button23 s st1 rest with
      | inl p =>
        obtain ⟨st4, hp, hw4, hm4⟩ := (button23_spec s st1 rest).1 p hb
        subst hp
        refine Or.inr ⟨rfl, by rw [hw4, hw], ?_⟩
        rcases hm4 with h | h
        · exact Or.inl h
        · exact Or.inr (by rw [h, hm])
      | inr st3 =>
        obtain ⟨h3m, h3w⟩ := (button23_spec s st1 rest).2 st3 hb
        exact pauseInv_transfer st3 st (h3m.trans hm) (h3w.trans hw) _
          (ih rest st3)

lemma pause_ret0 (i : Nat) (tr : List Sample) (st st1 : BState)
    (rest : List Sample) (h : pause i tr st = PRes.ret 0 st1 rest) :
    st1.mode = st.mode ∧ st1.modeWrites = st.modeWrites := by
  have hp := pause_cases i tr st
  rw [h] at hp
  rcases hp with ⟨_, h1, h2⟩ | ⟨h0, _⟩
  · exact ⟨h1, h2⟩
  · exact absurd h0 (by decide)

lemma pause_ret1 (i : Nat) (tr : List Sample) (st st1 : BState)
    (rest : List Sample) (h : pause i tr st = PRes.ret 1 st1 rest) :
    st1.modeWrites = st.modeWrites + 1 ∧
    (st1.mode = 0 ∨ st1.mode = (st.mode + 1) % 5) := by
  have hp := pause_cases i tr st
  rw [h] at hp
  rcases hp with ⟨h0, _⟩ | ⟨_, h1, h2⟩
  · exact absurd h0 (by decide)
  · exact ⟨h1, h2⟩

lemma pause_blockedPres (i : Nat) (tr : List Sample) (st st1 : BState)
    (h : pause i tr st = PRes.blocked st1) :
    st1.mode = st.mode ∧ st1.modeWrites = st.modeWrites := by
  have hp := pause_cases i tr st
  rw [h] at hp
  exact hp

lemma pause_r01 (i : Nat) (tr : List Sample) (st st1 : BState) (r : Nat)
    (rest : List Sample) (h : pause i tr st = PRes.ret r st1 rest) :
    r = 0 ∨ r = 1 := by
  have hp := pause_cases i tr st
  rw [h] at hp
  rcases hp with ⟨h0, _⟩ | ⟨h1, _⟩
  · exact Or.inl h0
  · exact Or.inr h1

lemma button23_no23 (s : Sample) (st1 : BState) (rest : List Sample)
    (hb2 : s.b2 = false) (hb3 : s.b3 = false) :
    button23 s st1 rest = Sum.inr { st1 with p43key := false } := by
  simp [button23, button3, hb2, hb3]

lemma pause_no23 : ∀ (i : Nat) (tr : List Sample) (st : BState),
    (∀ x ∈ tr, x.b2 = false ∧ x.b3 = false) →
    ∀ r st1 rest2, pause i tr st = PRes.ret r st1 rest2 → r = 0 := by
  intro i
  induction i with
  | zero =>
    intro tr st _ r st1 rest2 h
    simp only [pause] at h
    cases h
    rfl
  | succ i ih =>
    intro tr st hP r st1 rest2 h
    cases hs : spin tr st with
    | blocked st2 =>
      simp [pause, hs] at h
    | exited s st2 rest =>
      obtain ⟨hsm, hsub⟩ := spin_mem tr st s st2 rest hs
      obtain ⟨hb2, hb3⟩ := hP s hsm
      simp only [pause, hs] at h
      simp only [button23_no23 s st2 rest hb2 hb3] at h
      exact ih rest { st2 with p43key := false }
        (fun x hx => hP x (hsub x hx)) r st1 rest2 h

lemma spin_heldStays : ∀ (n : Nat) (st : BState), st.pause = true →
    st.p41key = true → spin (heldLow n) st = SpinRes.blocked st := by
  intro n
  induction n with
  | zero => intro st _ _; rfl
  | succ n ih =>
    intro st h1 h2
    have hstep : spinStep sB1 st = st := by
      simp [spinStep, sB1, h2]
    show spin (List.replicate (n + 1) sB1) st = SpinRes.blocked st
    rw [List.replicate_succ]
    simp only [spin, hstep, h1, if_true]
    exact ih st h1 h2

lemma spin_releasedStaysPaused : ∀ (tr : List Sample) (st : BState),
    st.pause = true → (∀ s ∈ tr, s.b1 = false) →
    ∃ st1, spin tr st = SpinRes.blocked st1 ∧ st1.pause = true := by
  intro tr
  induction tr with
  | nil =>
    intro st h1 _
    exact ⟨st, rfl, h1⟩
  | cons s0 tr ih =>
    intro st h1 hP
    have hb : s0.b1 = false := hP s0 (List.mem_cons_self _ _)
    have hstep : spinStep s0 st = { st with p41key := false } := by
      simp [spinStep, hb]
    have hp1 : ({ st with p41key := false } : BState).pause = true := h1
    obtain ⟨st1, he, hp⟩ := ih { st with p41key := false } hp1
      (fun s hsx => hP s (List.mem_cons_of_mem _ hsx))
    refine ⟨st1, ?_, hp⟩
    simp only [spin, hstep, hp1, if_true]
    exact he

lemma maskAnd_bit_self : ∀ x : Fin 8,
    (255 ^^^ (128 >>> x.val)).testBit (7 - x.val) = false := by decide

lemma maskAnd_bit_other : ∀ x x1 : Fin 8, x1 ≠ x →
    (255 ^^^ (128 >>> x.val)).testBit (7 - x1.val) = true := by decide

lemma maskOr_bit_self : ∀ x : Fin 8,
    (128 >>> x.val).testBit (7 - x.val) = true := by decide

lemma maskOr_bit_other : ∀ x x1 : Fin 8, x1 ≠ x →
    (128 >>> x.val).testBit (7 - x1.val) = false := by decide

lemma six_lt_eight : (6 : Nat) < 8 := by decide

lemma pause_succ (i : Nat) (tr : List Sample) (st : BState) :
    pause (i + 1) tr st =
      match spin tr st with
      | SpinRes.blocked st1 => PRes.blocked st1
      | SpinRes.exited s st1 rest =>
        match button23 s st1 rest with
        | Sum.inl p => p
        | Sum.inr st3 => pause i rest st3 := rfl

end ICubeSmart

/-! ## Claim theorems -/

namespace ICubeSmart

/-- C1 (refuted, code bug): because the `else p42key = 0;` of the
button-2 block binds to the inner `if (!p42key)` (dangling else), the
button-2 latch is cleared while the button is held and never on release,
so holding button 2 pressed across successive polls fires a second
mode-change event with no intervening release: from the initial state,
one held-low sample fires (first conjunct), and two further held-low
samples with no release fire again (second conjunct), performing a
second `mode` write (third conjunct). -/
theorem buttonTwoRefiresWhileHeld :
    pause 1 [sB2] initB = PRes.ret 1 stAfterFire2 [] ∧
    pause 2 [sB2, sB2] stAfterFire2 = PRes.ret 1 stAfterFire2Again [] ∧
    stAfterFire2Again.modeWrites = stAfterFire2.modeWrites + 1 :=
  ⟨rfl, rfl, rfl⟩

/-- C2: every pattern generator (`all`, `points`, `planes`, `dave`),
when its very first `pause` call reports a mode-change event, returns 1
(Interrupted) with the frame buffer holding exactly the mutations
scheduled before that first wait, and performs no mutation after it. -/
theorem generatorsInterruptedAtFirstWait :
    ∀ (oc : List Bool) (d : Display),
      all (true :: oc) d = (1, set_all true d, oc) ∧
      points (true :: oc) d =
        (1, set_point 0 0 0 true (set_all false d), oc) ∧
      planes (true :: oc) d =
        (1, set_x_plane 0 true (set_all false d), oc) ∧
      dave (true :: oc) d =
        (1, character_on_y 0 (daveData 0) (set_all false d), oc) :=
  fun _ _ => ⟨rfl, rfl, rfl, rfl⟩

/-- C3: each `timer_isr` firing first writes `P1 = 255` (all layers
deselected), then for each latch `i` writes the select `P2 = 2 ^ i` and
the data byte `display[layer][i]`, then enables exactly the current
layer (`P1 = 255 ^^^ 2 ^ layer`, whose bit `j` is clear iff `j = layer`),
and finally increments the layer index modulo 8, keeping it in
`[0, 8)`. -/
theorem timerIsrSpec :
    ∀ (layer : Nat) (hl : layer < 8) (d : Display),
      (timer_isr layer hl d).1 =
        PortWrite.p1 255 ::
          ((List.finRange 8).flatMap (fun i =>
            [PortWrite.p2 (2 ^ i.val), PortWrite.p0 (d ⟨layer, hl⟩ i)]) ++
           [PortWrite.p1 (255 ^^^ 2 ^ layer)]) ∧
      (∀ j, j < 8 → ((255 ^^^ 2 ^ layer).testBit j = false ↔ j = layer)) ∧
      (timer_isr layer hl d).2 = (layer + 1) % 8 ∧
      (timer_isr layer hl d).2 < 8 := by
  intro layer hl d
  have h1 : (1 <<< layer) = 2 ^ layer := by rw [Nat.shiftLeft_eq, one_mul]
  refine ⟨?_, ?_, ?_, ?_⟩
  · simp only [timer_isr]
    rw [h1]
    rfl
  · intro j hj
    interval_cases layer <;> interval_cases j <;> decide
  · simp only [timer_isr]
    split <;> omega
  · simp only [timer_isr]
    split <;> omega

/-- C3 witness: instance at layer 6, a concrete bit position, and an
all-off frame buffer. -/
theorem timerIsrSpecW :
    ((255 ^^^ 2 ^ 6).testBit 3 = false ↔ 3 = 6) ∧
    (timer_isr 6 six_lt_eight dInit).2 = (6 + 1) % 8 :=
  ⟨(timerIsrSpec 6 six_lt_eight dInit).2.1 3 (by decide),
   (timerIsrSpec 6 six_lt_eight dInit).2.2.1⟩

/-- C4: holding the pause button low for `n + 1` consecutive poll ticks,
from an unpaused state with the latch clear, toggles the pause flag
exactly once (ghost toggle counter increases by exactly 1, and the call
busy-waits); moreover a held sample with the latch set changes nothing
(no toggle on hold), and a released sample never toggles. -/
theorem pauseButtonTogglesOnce :
    ∀ (n i : Nat) (st : BState), st.pause = false → st.p41key = false →
      (pause (i + 1) (heldLow (n + 1)) st =
        PRes.blocked { st with pause := true, p41key := true,
                               toggles := st.toggles + 1 }) ∧
      (∀ (s : Sample) (st1 : BState), s.b1 = true → st1.p41key = true →
        spinStep s st1 = st1) ∧
      (∀ (s : Sample) (st1 : BState), s.b1 = false →
        (spinStep s st1).toggles = st1.toggles ∧
        (spinStep s st1).pause = st1.pause) := by
  intro n i st hp hk
  refine ⟨?_, ?_, ?_⟩
  · have hstep : spinStep sB1 st =
        { st with pause := true, p41key := true,
                  toggles := st.toggles + 1 } := by
      simp [spinStep, sB1, hk, hp]
    have hspin : spin (heldLow (n + 1)) st =
        SpinRes.blocked { st with pause := true, p41key := true,
                                  toggles := st.toggles + 1 } := by
      show spin (List.replicate (n + 1) sB1) st = _
      rw [List.replicate_succ]
      simp only [spin, hstep, if_true]
      exact spin_heldStays n _ rfl rfl
    simp only [pause, hspin]
  · intro s st1 hb hk1
    simp [spinStep, hb, hk1]
  · intro s st1 hb
    simp [spinStep, hb]

/-- C4 witness: three held-low ticks from the initial state. -/
theorem pauseButtonTogglesOnceW :
    pause 1 (heldLow 3) initB =
      PRes.blocked { initB with pause := true, p41key := true,
                                toggles := initB.toggles + 1 } :=
  (pauseButtonTogglesOnce 2 0 initB rfl rfl).1

/-- C5: while the pause flag is set the poll routine stays inside the
button-1 busy-wait: it touches neither `mode` nor the button-2/3 latches
(first conjunct; the frame buffer is untouched structurally, since the
busy-wait has no access to it at all), it stays blocked for the whole
paused period when button 1 gives no new press (second conjunct), and a
new button-1 press edge un-pauses immediately (third conjunct). -/
theorem pauseSuspendsAll :
    ∀ (tr : List Sample) (st : BState), st.pause = true →
      ((∀ st1, spin tr st = SpinRes.blocked st1 →
          st1.mode = st.mode ∧ st1.p42key = st.p42key ∧
          st1.p43key = st.p43key ∧ st1.modeWrites = st.modeWrites) ∧
       (∀ s st1 rest, spin tr st = SpinRes.exited s st1 rest →
          (st1.mode = st.mode ∧ st1.p42key = st.p42key ∧
           st1.p43key = st.p43key ∧ st1.modeWrites = st.modeWrites) ∧
          st1.pause = false)) ∧
      ((∀ s ∈ tr, s.b1 = false) →
        ∃ st1, spin tr st = SpinRes.blocked st1 ∧ st1.pause = true) ∧
      (st.p41key = false → ∀ (s : Sample) (rest : List Sample),
        s.b1 = true →
        spin (s :: rest) st =
          SpinRes.exited s { st with p41key := true, pause := false,
                                     toggles := st.toggles + 1 } rest) := by
  intro tr st hp
  refine ⟨spin_cases tr st, spin_releasedStaysPaused tr st hp, ?_⟩
  intro hk s rest hb
  have hstep : spinStep s st =
      { st with p41key := true, pause := false,
                toggles := st.toggles + 1 } := by
    simp [spinStep, hb, hk, hp]
  simp [spin, hstep]

/-- C5 witness: a button-3 press sampled while paused leaves the state
blocked and still paused (in particular `mode` stays 2). -/
theorem pauseSuspendsAllW :
    ∃ st1, spin [sB3] stPaused = SpinRes.blocked st1 ∧ st1.pause = true :=
  (pauseSuspendsAll [sB3] stPaused rfl).2.1
    (by intro s hs; cases List.mem_singleton.mp hs; rfl)

/-- C6: a confirmed button-3 press while `mode = 4` wraps the mode to 0
(first conjunct), a confirmed button-2 press forces mode 0 from any
prior mode (second conjunct); `pause` is the only writer of `mode`, and
a call returning 0 or running out of samples leaves `mode` untouched
(third and fourth conjuncts); `mode` starts at 0 (`static int mode = 0`,
last conjunct). -/
theorem modeButtonWrites :
    (∀ (k1 k2 : Bool) (t w : Nat),
      pause 1 [sB3] ⟨false, k1, k2, false, 4, t, w⟩ =
        PRes.ret 1 ⟨false, false, k2, true, 0, t, w + 1⟩ []) ∧
    (∀ (k1 k3 : Bool) (m t w : Nat),
      pause 1 [sB2] ⟨false, k1, false, k3, m, t, w⟩ =
        PRes.ret 1 ⟨false, false, true, k3, 0, t, w + 1⟩ []) ∧
    (∀ (i : Nat) (tr : List Sample) (st st1 : BState)
        (rest : List Sample),
      pause i tr st = PRes.ret 0 st1 rest →
        st1.mode = st.mode ∧ st1.modeWrites = st.modeWrites) ∧
    (∀ (i : Nat) (tr : List Sample) (st st1 : BState),
      pause i tr st = PRes.blocked st1 →
        st1.mode = st.mode ∧ st1.modeWrites = st.modeWrites) ∧
    initB.mode = 0 := by
  refine ⟨?_, ?_,
    fun i tr st st1 rest h => pause_ret0 i tr st st1 rest h,
    fun i tr st st1 h => pause_blockedPres i tr st st1 h, rfl⟩
  · intro k1 k2 t w
    have hs : spin [sB3] (⟨false, k1, k2, false, 4, t, w⟩ : BState) =
        SpinRes.exited sB3 ⟨false, false, k2, false, 4, t, w⟩ [] := rfl
    have hb : button23 sB3 (⟨false, false, k2, false, 4, t, w⟩ : BState)
          [] =
        Sum.inl (PRes.ret 1 ⟨false, false, k2, true, 0, t, w + 1⟩ []) := by
      simp [button23, button3, sB3]
    show pause (0 + 1) [sB3] ⟨false, k1, k2, false, 4, t, w⟩ = _
    rw [pause_succ]
    simp only [hs, hb]
  · intro k1 k3 m t w
    exact rfl

/-- C6 witness: the mode-preservation conjunct applied to a concrete
idle poll that returns 0. -/
theorem modeButtonWritesW :
    stMode1.mode = stMode1.mode ∧
    stMode1.modeWrites = stMode1.modeWrites :=
  modeButtonWrites.2.2.1 1 [sNone] stMode1 stMode1 [] rfl

/-- C7: in mode 4 the dispatch iteration runs generators 0 (`dave`),
1 (`points`), 2 (`planes`), 3 (`all`) in that order; if a sub-generator
returns 1 (Interrupted) the composite aborts: exactly the generators up
to and including it are invoked, the later ones are not, and the
iteration returns (so the outer `while(1)` loop re-reads `mode` for the
next iteration). -/
theorem modeFourComposite :
    ∀ (oc : List Bool) (d dA : Display) (ocA : List Bool),
      (dave oc d = (1, dA, ocA) → mainStep 4 oc d = (dA, ocA, [0])) ∧
      (∀ dB ocB, dave oc d = (0, dA, ocA) →
        points ocA dA = (1, dB, ocB) →
        mainStep 4 oc d = (dB, ocB, [0, 1])) ∧
      (∀ dB ocB dC ocC, dave oc d = (0, dA, ocA) →
        points ocA dA = (0, dB, ocB) → planes ocB dB = (1, dC, ocC) →
        mainStep 4 oc d = (dC, ocC, [0, 1, 2])) ∧
      (∀ dB ocB dC ocC rD dD ocD, dave oc d = (0, dA, ocA) →
        points ocA dA = (0, dB, ocB) → planes ocB dB = (0, dC, ocC) →
        all ocC dC = (rD, dD, ocD) →
        mainStep 4 oc d = (dD, ocD, [0, 1, 2, 3])) := by
  intro oc d dA ocA
  refine ⟨?_, ?_, ?_, ?_⟩
  · intro h
    simp [mainStep, runSeq, h]
  · intro dB ocB h1 h2
    simp [mainStep, runSeq, h1, h2]
  · intro dB ocB dC ocC h1 h2 h3
    simp [mainStep, runSeq, h1, h2, h3]
  · intro dB ocB dC ocC rD dD ocD h1 h2 h3 h4
    rcases eq_or_ne rD 1 with hr | hr
    · subst hr
      simp [mainStep, runSeq, h1, h2, h3, h4]
    · simp [mainStep, runSeq, h1, h2, h3, h4, hr]

/-- C7 witness: `dave` interrupted at its first wait aborts the whole
mode-4 composite, leaving only generator 0 invoked. -/
theorem modeFourCompositeW :
    mainStep 4 [true] dInit =
      ((dave [true] dInit).2.1, (dave [true] dInit).2.2, [0]) :=
  (modeFourComposite [true] dInit (dave [true] dInit).2.1
    (dave [true] dInit).2.2).1 rfl

/-- C8: `set_point (x, y, z, true)` makes that coordinate read as on,
`set_point (x, y, z, false)` as off, and either call leaves every other
coordinate of the frame buffer unchanged. -/
theorem setPointIsolation :
    ∀ (d : Display) (x y z : Fin 8),
      getPoint (set_point x y z true d) x y z = true ∧
      getPoint (set_point x y z false d) x y z = false ∧
      (∀ x1 y1 z1 : Fin 8, (x1, y1, z1) ≠ (x, y, z) →
        getPoint (set_point x y z true d) x1 y1 z1 =
          getPoint d x1 y1 z1 ∧
        getPoint (set_point x y z false d) x1 y1 z1 =
          getPoint d x1 y1 z1) := by
  intro d x y z
  refine ⟨?_, ?_, ?_⟩
  · unfold getPoint set_point
    rw [if_pos ⟨rfl, rfl⟩, if_pos rfl, Nat.testBit_land,
        maskAnd_bit_self x, Bool.and_false]
    rfl
  · unfold getPoint set_point
    rw [if_pos ⟨rfl, rfl⟩, if_neg Bool.false_ne_true, Nat.testBit_lor,
        maskOr_bit_self x, Bool.or_true]
    rfl
  · intro x1 y1 z1 hne
    by_cases hzy : z1 = z ∧ y1 = y
    · obtain ⟨hz, hy⟩ := hzy
      subst hz
      subst hy
      have hx : x1 ≠ x := by
        intro hx
        exact hne (by rw [hx])
      constructor
      · unfold getPoint set_point
        rw [if_pos ⟨rfl, rfl⟩, if_pos rfl, Nat.testBit_land,
            maskAnd_bit_other x x1 hx, Bool.and_true]
      · unfold getPoint set_point
        rw [if_pos ⟨rfl, rfl⟩, if_neg Bool.false_ne_true,
            Nat.testBit_lor, maskOr_bit_other x x1 hx, Bool.or_false]
    · constructor <;>
        · unfold getPoint set_point
          rw [if_neg hzy]

/-- C8 witness: set (1,2,3) on an all-off buffer; it reads as on and a
neighbouring coordinate is untouched. -/
theorem setPointIsolationW :
    getPoint (set_point 1 2 3 true dInit) 1 2 3 = true ∧
    getPoint (set_point 1 2 3 true dInit) 4 2 3 = getPoint dInit 4 2 3 :=
  ⟨(setPointIsolation dInit 1 2 3).1,
   ((setPointIsolation dInit 1 2 3).2.2 4 2 3 (by decide)).1⟩

/-- C9: rendering the glyph row bitmap `{0xFF,0,...,0}` onto y-plane 2
turns every x at `(y = 2, z = 0)` on and every x at `(y = 2, z)` off for
`z ≠ 0`. -/
theorem scrollGlyphRow :
    ∀ (d : Display) (x z : Fin 8),
      getPoint (character_on_y 2 glyphTop d) x 2 0 = true ∧
      (z ≠ 0 → getPoint (character_on_y 2 glyphTop d) x 2 z = false) := by
  intro d x z
  constructor
  · unfold getPoint character_on_y
    rw [if_pos rfl]
    revert x
    decide
  · intro hz
    unfold getPoint character_on_y
    rw [if_pos rfl]
    revert hz
    revert x z
    decide

/-- C9 witness: instance at x = 6, z = 3. -/
theorem scrollGlyphRowW :
    getPoint (character_on_y 2 glyphTop dInit) 6 2 0 = true ∧
    getPoint (character_on_y 2 glyphTop dInit) 6 2 3 = false :=
  ⟨(scrollGlyphRow dInit 6 3).1, (scrollGlyphRow dInit 6 3).2 (by decide)⟩

/-- C10: a `pause` call returns 1 exactly when a mode-button event fired
during it (exactly one new `mode` write, to 0 or to `(mode + 1) % 5`);
a return of 0 or running out of samples leaves `mode` untouched, and
only 0 and 1 are ever returned; moreover on a trace where buttons 2 and
3 stay released (any button-1 activity, including a full pause-resume
episode, allowed), the call can only return 0. -/
theorem pauseReturnContract :
    ∀ (i : Nat) (tr : List Sample) (st : BState),
      ((∀ st1 rest, pause i tr st = PRes.ret 1 st1 rest →
          st1.modeWrites = st.modeWrites + 1 ∧
          (st1.mode = 0 ∨ st1.mode = (st.mode + 1) % 5)) ∧
       (∀ st1 rest, pause i tr st = PRes.ret 0 st1 rest →
          st1.modeWrites = st.modeWrites ∧ st1.mode = st.mode) ∧
       (∀ st1, pause i tr st = PRes.blocked st1 →
          st1.modeWrites = st.modeWrites ∧ st1.mode = st.mode) ∧
       (∀ r st1 rest, pause i tr st = PRes.ret r st1 rest →
          r = 0 ∨ r = 1)) ∧
      ((∀ s ∈ tr, s.b2 = false ∧ s.b3 = false) →
        ∀ r st1 rest, pause i tr st = PRes.ret r st1 rest → r = 0) := by
  intro i tr st
  refine ⟨⟨?_, ?_, ?_, ?_⟩, pause_no23 i tr st⟩
  · exact fun st1 rest h => pause_ret1 i tr st st1 rest h
  · exact fun st1 rest h =>
      ⟨(pause_ret0 i tr st st1 rest h).2, (pause_ret0 i tr st st1 rest h).1⟩
  · exact fun st1 h =>
      ⟨(pause_blockedPres i tr st st1 h).2,
       (pause_blockedPres i tr st st1 h).1⟩
  · exact fun r st1 rest h => pause_r01 i tr st st1 r rest h

/-- C10 witness: a concrete button-3 fire from mode 1 writes mode
exactly once, to `(1 + 1) % 5`. -/
theorem pauseReturnContractW :
    stMode2.modeWrites = stMode1.modeWrites + 1 ∧
    (stMode2.mode = 0 ∨ stMode2.mode = (stMode1.mode + 1) % 5) :=
  (pauseReturnContract 1 [sB3] stMode1).1.1 stMode2 [] rfl

end ICubeSmart
